import Mathlib

/-!
Shallow embedding of src/main.rs of the rust_aws_lambda repository.

The program is an AWS Lambda with two paths: an S3-notification handler
(filter, key normalization, metadata fetch, DynamoDB persist, thumbnail
recursion guard, thumbnail generation) and a timer-triggered daily-report
mailer (query all records, delete them, render an HTML table, send mail).

External services (S3, DynamoDB, SMTP, the thumbnailer library) are modelled
as oracles in an environment structure; each handler is a pure function from
the environment and its input to a trace of the calls it issues plus an
outcome.  A Rust panic (an unwrap of None) is modelled as a distinguished
outcome, and fallible operations return Option.
-/

/-- In-memory record of one processed upload (struct S3ObjectInfo,
main.rs lines 21-27).  object_size is the i64 content length. -/
structure S3ObjectInfo where
  s3_uri : String
  object_name : String
  object_type : String
  object_size : Int
deriving DecidableEq, Repr

/-- DynamoDB attribute value, restricted to the two variants the program
uses: S (string) and N (number stored as its decimal string). -/
inductive AttributeValue where
  | S (s : String)
  | N (n : String)
deriving DecidableEq, Repr

/-- Rust AttributeValue::as_s, returning none where Rust returns Err. -/
def AttributeValue.as_s : AttributeValue → Option String
  | .S s => some s
  | _ => none

/-- Rust AttributeValue::as_n, returning none where Rust returns Err. -/
def AttributeValue.as_n : AttributeValue → Option String
  | .N n => some n
  | _ => none

/-- Rust str::starts_with for string patterns: the pattern's characters are
a prefix of the subject's characters. -/
def strStartsWith (s pat : String) : Bool :=
  List.isPrefixOf pat.data s.data

/-- Rust str::is_empty. -/
def strIsEmpty (s : String) : Bool :=
  s.data.isEmpty

/-- Rust key.replace of one character by one character: pointwise character
substitution.  Used for key.replace of a plus sign by a space. -/
def replaceChar (s : String) (a b : Char) : String :=
  ⟨s.data.map (fun c => if c = a then b else c)⟩

/-- Decimal digit to its character, as Rust's integer formatting emits. -/
def digitChar (d : Nat) : Char :=
  match d with
  | 0 => '0' | 1 => '1' | 2 => '2' | 3 => '3' | 4 => '4'
  | 5 => '5' | 6 => '6' | 7 => '7' | 8 => '8' | 9 => '9'
  | _ => '*'

/-- Character to decimal digit, as Rust's integer parsing reads: a
character between '0' and '9' maps to its value, anything else fails. -/
def charDigit (c : Char) : Option Nat :=
  if '0' ≤ c ∧ c ≤ '9' then some (c.toNat - 48) else none

/-- Big-endian decimal digits of n, with explicit fuel (any fuel above n
gives the mathematical digit list). -/
def toDecDigits : Nat → Nat → List Nat
  | 0, _ => []
  | fuel+1, n => if n < 10 then [n] else toDecDigits fuel (n / 10) ++ [n % 10]

/-- Decimal string of a natural number, as Rust u64 Display produces. -/
def natDecString (n : Nat) : String :=
  ⟨(toDecDigits (n+1) n).map digitChar⟩

/-- Rust i64 to_string: optional minus sign then decimal digits. -/
def i64ToString (i : Int) : String :=
  if i < 0 then "-" ++ natDecString i.natAbs else natDecString i.natAbs

/-- Fold a run of digit characters into a number; none on a non-digit. -/
def parseDigitsAux : Nat → List Char → Option Nat
  | acc, [] => some acc
  | acc, c :: cs =>
    match charDigit c with
    | some d => parseDigitsAux (acc * 10 + d) cs
    | none => none

/-- Rust str::parse for i64: optional sign, digit run, i64 range check. -/
def parseI64 (s : String) : Option Int :=
  match s.data with
  | [] => none
  | c :: cs =>
    if c = '-' then
      if cs.isEmpty then none
      else
        match parseDigitsAux 0 cs with
        | some n => if (n : Int) ≤ 2 ^ 63 then some (-(n : Int)) else none
        | none => none
    else if c = '+' then
      if cs.isEmpty then none
      else
        match parseDigitsAux 0 cs with
        | some n => if (n : Int) ≤ 2 ^ 63 - 1 then some (n : Int) else none
        | none => none
    else
      match parseDigitsAux 0 (c :: cs) with
      | some n => if (n : Int) ≤ 2 ^ 63 - 1 then some (n : Int) else none
      | none => none

/-- main.rs convert_s3_info_into_attribute_map (lines 311-330): the four
attributes, object_size stored as AttributeValue::N of its decimal string.
The Rust HashMap is modelled as an association list with these four keys. -/
def convert_s3_info_into_attribute_map (s3_info : S3ObjectInfo) :
    List (String × AttributeValue) :=
  [("s3_uri", AttributeValue.S s3_info.s3_uri),
   ("object_name", AttributeValue.S s3_info.object_name),
   ("object_type", AttributeValue.S s3_info.object_type),
   ("object_size", AttributeValue.N (i64ToString s3_info.object_size))]

/-- main.rs convert_attribute_map_into_s3_info (lines 332-363): looks up the
four attributes and parses object_size back to an integer.  Each Rust unwrap
that would panic on a missing key, wrong variant, or unparseable number is
modelled as none. -/
def convert_attribute_map_into_s3_info
    (attribute_map : List (String × AttributeValue)) : Option S3ObjectInfo :=
  match (attribute_map.lookup "s3_uri").bind AttributeValue.as_s,
        (attribute_map.lookup "object_name").bind AttributeValue.as_s,
        (attribute_map.lookup "object_type").bind AttributeValue.as_s,
        (attribute_map.lookup "object_size").bind AttributeValue.as_n with
  | some u, some nm, some ty, some szs =>
    match parseI64 szs with
    | some sz => some ⟨u, nm, ty, sz⟩
    | none => none
  | _, _, _, _ => none

/-- The fields of aws_lambda_events S3EventRecord that the program reads:
eventName, s3.bucket.name, s3.object.key (all optional in the schema). -/
structure S3EventRecord where
  event_name : Option String
  bucket_name : Option String
  object_key : Option String
deriving DecidableEq, Repr

/-- Response of the S3 get_object call as the program reads it: the optional
content type and optional content length (main.rs lines 88-89). -/
structure HeadObjectResponse where
  content_type : Option String
  content_length : Option Int
deriving DecidableEq, Repr

/-- Oracles for the external services the S3-event path calls.  get_object
and get_file return none where the Rust call returns Err (transport error);
make_thumbnail returns none where get_thumbnail returns Err. -/
structure S3Env where
  get_object : String → String → Option HeadObjectResponse
  get_file : String → String → Option (List Nat)
  make_thumbnail : List Nat → String → Nat → Option (List Nat)

/-- One call the S3-event path issues against an external service, recorded
with its arguments. -/
inductive S3Effect where
  | getObjectCall (bucket key : String)
  | putDbItem (info : S3ObjectInfo)
  | getFileCall (bucket key : String)
  | thumbnailCall (image : List Nat) (mime : String)
  | putFileCall (bucket key : String) (content : List Nat)
deriving DecidableEq, Repr

/-- Control outcome of processing one notification record: go on to the
next record, stop the whole batch (the recursion guard's early return), or
panic (an unwrap of None). -/
inductive RecordStep where
  | next
  | stopBatch
  | panicked
deriving DecidableEq, Repr

/-- Outcome of a whole handler invocation. -/
inductive HandlerOutcome where
  | ok
  | panicked
deriving DecidableEq, Repr

/-- main.rs get_file_props (lines 161-182): keep only records whose
event_name starts with ObjectCreated and whose bucket name and object key
are present and non-empty.  The Option::filter plus ok_or chains are written
as matches with the same error strings. -/
def get_file_props (record : S3EventRecord) : Except String (String × String) :=
  match record.event_name with
  | none => .error "Wrong event"
  | some s =>
    if strStartsWith s "ObjectCreated" then
      match record.bucket_name with
      | none => .error "No bucket name"
      | some bucket =>
        if strIsEmpty bucket then .error "No bucket name"
        else
          match record.object_key with
          | none => .error "No object key"
          | some key =>
            if strIsEmpty key then .error "No object key"
            else .ok (bucket, key)
    else .error "Wrong event"

/-- Body of the per-record loop of main.rs s3_event_handler (lines 60-155):
filter, normalize the key (plus sign to space), build the s3 URI, fetch
metadata (skip the record on Err, panic on a missing content type or
length), persist the record (failure only logged), recursion guard on the
thumbnail name, and the conditional thumbnail pipeline.
Returns the calls issued for this record and the control outcome. -/
def processRecord (env : S3Env) (record : S3EventRecord) :
    List S3Effect × RecordStep :=
  match get_file_props record with
  | .error _ => ([], .next)
  | .ok (bucket, key) =>
    let object_name := replaceChar key '+' ' '
    let s3_uri := "s3://" ++ bucket ++ "/" ++ object_name
    match env.get_object bucket object_name with
    | none => ([.getObjectCall bucket object_name], .next)
    | some response =>
      match response.content_type with
      | none => ([.getObjectCall bucket object_name], .panicked)
      | some object_type =>
        match response.content_length with
        | none => ([.getObjectCall bucket object_name], .panicked)
        | some object_size =>
          let s3_info : S3ObjectInfo :=
            ⟨s3_uri, object_name, object_type, object_size⟩
          let eff0 : List S3Effect :=
            [.getObjectCall bucket object_name, .putDbItem s3_info]
          if strStartsWith object_name "thumbnail-" then
            (eff0, .stopBatch)
          else if strStartsWith object_type "image" then
            if !(["image/png", "image/jpeg", "image/jpg"].contains object_type)
            then (eff0, .next)
            else
              match env.get_file bucket object_name with
              | none => (eff0 ++ [.getFileCall bucket object_name], .next)
              | some image =>
                match env.make_thumbnail image object_type 128 with
                | none =>
                  (eff0 ++ [.getFileCall bucket object_name,
                            .thumbnailCall image object_type], .next)
                | some thumbnail =>
                  (eff0 ++ [.getFileCall bucket object_name,
                            .thumbnailCall image object_type,
                            .putFileCall bucket ("thumbnail-" ++ object_name)
                              thumbnail], .next)
          else (eff0, .next)

/-- main.rs s3_event_handler (lines 53-159): fold processRecord over the
batch; a stopBatch outcome returns Ok for the whole invocation with the
remaining records untouched; a panic aborts the invocation. -/
def s3_event_handler (env : S3Env) :
    List S3EventRecord → List S3Effect × HandlerOutcome
  | [] => ([], .ok)
  | r :: rest =>
    match (processRecord env r).2 with
    | .next =>
      ((processRecord env r).1 ++ (s3_event_handler env rest).1,
       (s3_event_handler env rest).2)
    | .stopBatch => ((processRecord env r).1, .ok)
    | .panicked => ((processRecord env r).1, .panicked)

/-- Oracles for the external services the report path calls.  query_result
is none where the DynamoDB query returns Err; delete_ok gives the per-item
result of delete_item keyed by the sort key; the email credentials model
the two environment variables. -/
structure MailEnv where
  query_result : Option (List S3ObjectInfo)
  delete_ok : String → Bool
  email_username : Option String
  email_password : Option String

/-- One call the report path issues against an external service. -/
inductive MailEffect where
  | queryCall
  | deleteItemCall (sort_key : String)
  | sendAttempt
deriving DecidableEq, Repr

/-- main.rs delete_s3_info_from_db (lines 401-415): delete each record by
its sort key (the s3 URI), one at a time; the question-mark operator on each
send propagates the first Err, so records after a failing one are not
attempted.  Returns the delete calls issued and true for Ok, false for Err. -/
def delete_s3_info_from_db (env : MailEnv) :
    List S3ObjectInfo → List MailEffect × Bool
  | [] => ([], true)
  | info :: rest =>
    if env.delete_ok info.s3_uri then
      (MailEffect.deleteItemCall info.s3_uri ::
        (delete_s3_info_from_db env rest).1,
       (delete_s3_info_from_db env rest).2)
    else ([MailEffect.deleteItemCall info.s3_uri], false)

/-- main.rs send_daily_report_mail (lines 206-309): query all records
(return on Err), delete the batch just read (an Err here is only logged),
render the HTML report (pure: the template and addresses are fixed, so the
template unwraps always succeed and issue no service call), read the two
credential environment variables (return on a missing one), then attempt
the SMTP send (its result is only logged, so the trace does not depend on
it).  Returns the trace of service calls. -/
def send_daily_report_mail (env : MailEnv) : List MailEffect :=
  match env.query_result with
  | none => [MailEffect.queryCall]
  | some list =>
    let effs := MailEffect.queryCall :: (delete_s3_info_from_db env list).1
    match env.email_username with
    | none => effs
    | some _ =>
      match env.email_password with
      | none => effs
      | some _ => effs ++ [MailEffect.sendAttempt]

/-- The invocation payload as the entry router inspects it: whether a
Records field is present, the result of parsing the payload as an S3Event
(none where serde returns Err), and whether a time field is present. -/
structure Payload where
  has_records : Bool
  parsed_records : Option (List S3EventRecord)
  has_time : Bool

/-- What the invocation reports to the scheduler: success, or failure
(a returned Err or a panic both surface as an invocation error). -/
inductive InvocationOutcome where
  | success
  | failure
deriving DecidableEq, Repr

/-- main.rs function_handler (lines 35-51): a payload with a Records field
is parsed as an S3Event (the unwrap panics on a parse failure) and handed
to s3_event_handler; otherwise a payload with a time field runs
send_daily_report_mail, whose unit return means that path always reports
success; any other payload is a no-op returning Ok. -/
def function_handler (payload : Payload) (s3env : S3Env) (mailEnv : MailEnv) :
    List S3Effect × List MailEffect × InvocationOutcome :=
  if payload.has_records then
    match payload.parsed_records with
    | none => ([], [], .failure)
    | some records =>
      match s3_event_handler s3env records with
      | (effs, .ok) => (effs, [], .success)
      | (effs, .panicked) => (effs, [], .failure)
  else if payload.has_time then
    ([], send_daily_report_mail mailEnv, .success)
  else ([], [], .success)

/-! Helper lemmas about the decimal encoding used by the attribute-map
conversions. -/

theorem charDigit_digitChar (d : Nat) (h : d < 10) :
    charDigit (digitChar d) = some d := by
  interval_cases d <;> rfl

theorem digitChar_ne_minus (d : Nat) : digitChar d ≠ '-' := by
  unfold digitChar; split <;> decide

theorem digitChar_ne_plus (d : Nat) : digitChar d ≠ '+' := by
  unfold digitChar; split <;> decide

theorem parseDigitsAux_append (xs : List Char) :
    ∀ (acc : Nat) (ys : List Char),
      parseDigitsAux acc (xs ++ ys) =
        (parseDigitsAux acc xs).bind (fun a => parseDigitsAux a ys) := by
  induction xs with
  | nil => intro acc ys; rfl
  | cons c cs ih =>
    intro acc ys
    simp only [List.cons_append, parseDigitsAux]
    cases h : charDigit c with
    | none => rfl
    | some d => exact ih (acc * 10 + d) ys

theorem toDecDigits_ne_nil (fuel n : Nat) : toDecDigits (fuel + 1) n ≠ [] := by
  unfold toDecDigits
  split
  · simp
  · simp

theorem parseDigitsAux_toDecDigits :
    ∀ (fuel n acc : Nat), n < fuel →
      parseDigitsAux acc ((toDecDigits fuel n).map digitChar) =
        some (acc * 10 ^ (toDecDigits fuel n).length + n) := by
  intro fuel
  induction fuel with
  | zero => intro n acc h; omega
  | succ f ih =>
    intro n acc h
    by_cases hn : n < 10
    · simp only [toDecDigits, if_pos hn, List.map_cons, List.map_nil,
        List.length_cons, List.length_nil]
      simp only [parseDigitsAux, charDigit_digitChar n hn]
      norm_num
    · have h10 : 10 ≤ n := Nat.le_of_not_lt hn
      have hdiv : n / 10 < n := Nat.div_lt_self (by omega) (by omega)
      have hf : n / 10 < f := by omega
      simp only [toDecDigits, if_neg hn, List.map_append, List.map_cons,
        List.map_nil, List.length_append, List.length_cons, List.length_nil]
      rw [parseDigitsAux_append, ih (n / 10) acc hf]
      have hm : charDigit (digitChar (n % 10)) = some (n % 10) :=
        charDigit_digitChar _ (Nat.mod_lt n (by omega))
      simp only [Option.some_bind, parseDigitsAux, hm]
      refine congrArg some ?_
      rw [Nat.zero_add, Nat.pow_succ]
      rw [show (acc * 10 ^ (toDecDigits f (n / 10)).length + n / 10) * 10 +
            n % 10 =
          acc * (10 ^ (toDecDigits f (n / 10)).length * 10) +
            (n / 10 * 10 + n % 10) from by ring, Nat.div_add_mod']

theorem parseI64_natDecString (n : Nat) (h : (n : Int) ≤ 2 ^ 63 - 1) :
    parseI64 (natDecString n) = some (n : Int) := by
  rcases hd : toDecDigits (n + 1) n with _ | ⟨d, ds⟩
  · exact absurd hd (toDecDigits_ne_nil n n)
  · have hdata : (natDecString n).data = digitChar d :: ds.map digitChar := by
      simp [natDecString, hd]
    have hparse := parseDigitsAux_toDecDigits (n + 1) n 0 (Nat.lt_succ_self n)
    rw [hd] at hparse
    simp only [List.map_cons, Nat.zero_mul, Nat.zero_add] at hparse
    simp only [parseI64, hdata, if_neg (digitChar_ne_minus d),
      if_neg (digitChar_ne_plus d), hparse, if_pos h]

theorem parseI64_i64ToString (i : Int)
    (h1 : -(2 ^ 63) ≤ i) (h2 : i ≤ 2 ^ 63 - 1) :
    parseI64 (i64ToString i) = some i := by
  by_cases hneg : i < 0
  · have habs : (i.natAbs : Int) = -i := by omega
    rcases hd : toDecDigits (i.natAbs + 1) i.natAbs with _ | ⟨d, ds⟩
    · exact absurd hd (toDecDigits_ne_nil i.natAbs i.natAbs)
    · have hdata : (i64ToString i).data =
          '-' :: (digitChar d :: ds.map digitChar) := by
        simp [i64ToString, if_pos hneg, natDecString, hd]
      have hparse := parseDigitsAux_toDecDigits (i.natAbs + 1) i.natAbs 0
        (Nat.lt_succ_self i.natAbs)
      rw [hd] at hparse
      simp only [List.map_cons, Nat.zero_mul, Nat.zero_add] at hparse
      have hrange : (i.natAbs : Int) ≤ 2 ^ 63 := by omega
      simp only [parseI64, hdata, if_pos rfl, List.isEmpty_cons,
        Bool.false_eq_true, if_neg (by simp : ¬False), hparse, if_pos hrange]
      rw [habs]
      simp
  · have hpos : 0 ≤ i := Int.not_lt.mp hneg
    have habs : (i.natAbs : Int) = i := Int.natAbs_of_nonneg hpos
    have : i64ToString i = natDecString i.natAbs := by
      simp [i64ToString, if_neg hneg]
    rw [this, parseI64_natDecString i.natAbs (by rw [habs]; exact h2), habs]

/-- C3: for every UploadRecord (with object_size in i64 range, as it is in
the program), converting it to the persisted attribute map — object_size
stored as a decimal string — and converting that map back yields a record
equal field-by-field to the original, with object_size recovered as the
same integer. -/
theorem convert_map_round_trip (info : S3ObjectInfo)
    (h1 : -(2 ^ 63) ≤ info.object_size) (h2 : info.object_size ≤ 2 ^ 63 - 1) :
    convert_attribute_map_into_s3_info
      (convert_s3_info_into_attribute_map info) = some info := by
  have hsz := parseI64_i64ToString info.object_size h1 h2
  simp [convert_s3_info_into_attribute_map,
    convert_attribute_map_into_s3_info, List.lookup, AttributeValue.as_s,
    AttributeValue.as_n, hsz]

/-- Witness for C3 at a concrete record. -/
theorem convert_map_round_trip_witness :
    convert_attribute_map_into_s3_info
      (convert_s3_info_into_attribute_map
        ⟨"s3://b/cat.png", "cat.png", "image/png", 2048⟩) =
      some ⟨"s3://b/cat.png", "cat.png", "image/png", 2048⟩ :=
  convert_map_round_trip ⟨"s3://b/cat.png", "cat.png", "image/png", 2048⟩
    (by decide) (by decide)

/-! Helper lemmas about the batch fold of s3_event_handler. -/

theorem s3_event_handler_cons_next (env : S3Env) (r : S3EventRecord)
    (rest : List S3EventRecord) (h : (processRecord env r).2 = RecordStep.next) :
    s3_event_handler env (r :: rest) =
      ((processRecord env r).1 ++ (s3_event_handler env rest).1,
       (s3_event_handler env rest).2) := by
  simp [s3_event_handler, h]

theorem s3_event_handler_cons_stop (env : S3Env) (r : S3EventRecord)
    (rest : List S3EventRecord)
    (h : (processRecord env r).2 = RecordStep.stopBatch) :
    s3_event_handler env (r :: rest) =
      ((processRecord env r).1, HandlerOutcome.ok) := by
  simp [s3_event_handler, h]

theorem s3_event_handler_cons_panic (env : S3Env) (r : S3EventRecord)
    (rest : List S3EventRecord)
    (h : (processRecord env r).2 = RecordStep.panicked) :
    s3_event_handler env (r :: rest) =
      ((processRecord env r).1, HandlerOutcome.panicked) := by
  simp [s3_event_handler, h]

theorem list_map_eq_self_mem {α : Type} {f : α → α} :
    ∀ {l : List α}, l.map f = l → ∀ x ∈ l, f x = x := by
  intro l
  induction l with
  | nil => intro _ x hx; cases hx
  | cons a t ih =>
    intro h x hx
    simp only [List.map_cons, List.cons.injEq] at h
    rcases List.mem_cons.mp hx with rfl | hx
    · exact h.1
    · exact ih h.2 x hx

theorem replaceChar_ne_of_mem (s : String) (h : '+' ∈ s.data) :
    replaceChar s '+' ' ' ≠ s := by
  intro he
  have hdata : s.data.map (fun c => if c = '+' then ' ' else c) = s.data :=
    congrArg String.data he
  have := list_map_eq_self_mem hdata '+' h
  simp at this

/-- C5: a notification record proceeds past the filter exactly when its
event-name begins with ObjectCreated and its bucket name and object key are
present and non-empty; a record failing the filter is skipped with no
persisted entry and no thumbnail (it issues no service call at all), and
processing continues with the next record in the batch. -/
theorem filter_accepts_iff (env : S3Env) (r : S3EventRecord)
    (rest : List S3EventRecord) :
    ((∃ b k, get_file_props r = .ok (b, k)) ↔
      ((∃ s, r.event_name = some s ∧ strStartsWith s "ObjectCreated" = true) ∧
       (∃ b, r.bucket_name = some b ∧ strIsEmpty b = false) ∧
       (∃ k, r.object_key = some k ∧ strIsEmpty k = false)))
    ∧ (∀ msg, get_file_props r = .error msg →
        processRecord env r = ([], RecordStep.next) ∧
        s3_event_handler env (r :: rest) = s3_event_handler env rest) := by
  constructor
  · cases hen : r.event_name with
    | none => simp [get_file_props, hen]
    | some s =>
      by_cases hsw : strStartsWith s "ObjectCreated"
      · cases hbn : r.bucket_name with
        | none => simp [get_file_props, hen, hbn, hsw]
        | some b =>
          by_cases hbe : strIsEmpty b
          · simp [get_file_props, hen, hbn, hsw, hbe]
          · cases hok : r.object_key with
            | none => simp [get_file_props, hen, hbn, hok, hsw, hbe]
            | some k =>
              by_cases hke : strIsEmpty k
              · simp [get_file_props, hen, hbn, hok, hsw, hbe, hke]
              · simp [get_file_props, hen, hbn, hok, hsw, hbe, hke]
      · simp [get_file_props, hen, hsw]
  · intro msg hmsg
    have hpr : processRecord env r = ([], RecordStep.next) := by
      simp [processRecord, hmsg]
    refine ⟨hpr, ?_⟩
    rw [s3_event_handler_cons_next env r rest (by rw [hpr])]
    simp [hpr]

/-- Witness for C5: a record with eventName ObjectRemoved:Delete fails the
filter and is skipped, the batch going on to the next record. -/
theorem filter_accepts_iff_witness :
    get_file_props ⟨some "ObjectRemoved:Delete", some "b", some "k.png"⟩ =
      .error "Wrong event" ∧
    processRecord ⟨fun _ _ => none, fun _ _ => none, fun _ _ _ => none⟩
        ⟨some "ObjectRemoved:Delete", some "b", some "k.png"⟩ =
      ([], RecordStep.next) ∧
    s3_event_handler ⟨fun _ _ => none, fun _ _ => none, fun _ _ _ => none⟩
        [⟨some "ObjectRemoved:Delete", some "b", some "k.png"⟩] =
      s3_event_handler ⟨fun _ _ => none, fun _ _ => none, fun _ _ _ => none⟩
        [] :=
  ⟨rfl,
   (filter_accepts_iff ⟨fun _ _ => none, fun _ _ => none, fun _ _ _ => none⟩
       ⟨some "ObjectRemoved:Delete", some "b", some "k.png"⟩ []).2
     "Wrong event" rfl |>.1,
   (filter_accepts_iff ⟨fun _ _ => none, fun _ _ => none, fun _ _ _ => none⟩
       ⟨some "ObjectRemoved:Delete", some "b", some "k.png"⟩ []).2
     "Wrong event" rfl |>.2⟩

/-- C4: for a record that reaches the guard (it passed the filter and its
metadata fetch returned a content type and length), the recursion guard
fires exactly when the normalized object_name starts with the string
thumbnail-, and when it fires the whole remaining batch stops: the
invocation returns Ok with no effect from any later record. -/
theorem recursion_guard_exact (env : S3Env) (r : S3EventRecord)
    (rest : List S3EventRecord) (bucket key : String)
    (response : HeadObjectResponse) (ty : String) (sz : Int)
    (hp : get_file_props r = .ok (bucket, key))
    (hg : env.get_object bucket (replaceChar key '+' ' ') = some response)
    (hct : response.content_type = some ty)
    (hcl : response.content_length = some sz) :
    ((processRecord env r).2 = RecordStep.stopBatch ↔
      strStartsWith (replaceChar key '+' ' ') "thumbnail-" = true)
    ∧ ((processRecord env r).2 = RecordStep.stopBatch →
        s3_event_handler env (r :: rest) =
          ((processRecord env r).1, HandlerOutcome.ok)) := by
  by_cases hguard : strStartsWith (replaceChar key '+' ' ') "thumbnail-" = true
  · have hstop : (processRecord env r).2 = RecordStep.stopBatch := by
      simp only [processRecord, hp, hg, hct, hcl]
      rw [if_pos hguard]
    exact ⟨by simp [hstop, hguard],
           fun _ => s3_event_handler_cons_stop env r rest hstop⟩
  · have hnext : (processRecord env r).2 = RecordStep.next := by
      simp only [processRecord, hp, hg, hct, hcl]
      rw [if_neg hguard]
      split
      · split
        · rfl
        · split
          · rfl
          · split <;> rfl
      · rfl
    constructor
    · rw [hnext]
      simp only [hguard]
      exact ⟨fun h => absurd h (by simp), fun h => absurd h (by simp)⟩
    · intro h
      rw [hnext] at h
      exact absurd h (by simp)

/-- Witness for C4: a thumbnail-prefixed upload stops the rest of the
batch. -/
theorem recursion_guard_exact_witness :
    ((processRecord
        ⟨fun _ _ => some ⟨some "image/png", some 5⟩, fun _ _ => none,
         fun _ _ _ => none⟩
        ⟨some "ObjectCreated:Put", some "b", some "thumbnail-cat.png"⟩).2 =
        RecordStep.stopBatch ↔
      strStartsWith (replaceChar "thumbnail-cat.png" '+' ' ') "thumbnail-" =
        true)
    ∧ ((processRecord
          ⟨fun _ _ => some ⟨some "image/png", some 5⟩, fun _ _ => none,
           fun _ _ _ => none⟩
          ⟨some "ObjectCreated:Put", some "b", some "thumbnail-cat.png"⟩).2 =
          RecordStep.stopBatch →
        s3_event_handler
            ⟨fun _ _ => some ⟨some "image/png", some 5⟩, fun _ _ => none,
             fun _ _ _ => none⟩
            [⟨some "ObjectCreated:Put", some "b", some "thumbnail-cat.png"⟩,
             ⟨some "ObjectCreated:Put", some "b", some "other.png"⟩] =
          ((processRecord
              ⟨fun _ _ => some ⟨some "image/png", some 5⟩, fun _ _ => none,
               fun _ _ _ => none⟩
              ⟨some "ObjectCreated:Put", some "b",
               some "thumbnail-cat.png"⟩).1,
           HandlerOutcome.ok)) :=
  recursion_guard_exact
    ⟨fun _ _ => some ⟨some "image/png", some 5⟩, fun _ _ => none,
     fun _ _ _ => none⟩
    ⟨some "ObjectCreated:Put", some "b", some "thumbnail-cat.png"⟩
    [⟨some "ObjectCreated:Put", some "b", some "other.png"⟩]
    "b" "thumbnail-cat.png" ⟨some "image/png", some 5⟩ "image/png" 5
    rfl rfl rfl rfl

/-- C8: for a record whose fetched content type is outside the allow-list
of image/png, image/jpeg, image/jpg (for example image/svg+xml), no
thumbnail call is issued — the record's trace is exactly the metadata fetch
and the DB put — and the batch item completes without error, processing
continuing with the next record. -/
theorem unsupported_type_skips_thumbnail (env : S3Env) (r : S3EventRecord)
    (rest : List S3EventRecord) (bucket key : String)
    (response : HeadObjectResponse) (ty : String) (sz : Int)
    (hp : get_file_props r = .ok (bucket, key))
    (hg : env.get_object bucket (replaceChar key '+' ' ') = some response)
    (hct : response.content_type = some ty)
    (hcl : response.content_length = some sz)
    (hguard : strStartsWith (replaceChar key '+' ' ') "thumbnail-" = false)
    (hns : (["image/png", "image/jpeg", "image/jpg"].contains ty) = false) :
    processRecord env r =
      ([S3Effect.getObjectCall bucket (replaceChar key '+' ' '),
        S3Effect.putDbItem
          ⟨"s3://" ++ bucket ++ "/" ++ replaceChar key '+' ' ',
           replaceChar key '+' ' ', ty, sz⟩], RecordStep.next)
    ∧ s3_event_handler env (r :: rest) =
        ((processRecord env r).1 ++ (s3_event_handler env rest).1,
         (s3_event_handler env rest).2) := by
  have hpr : processRecord env r =
      ([S3Effect.getObjectCall bucket (replaceChar key '+' ' '),
        S3Effect.putDbItem
          ⟨"s3://" ++ bucket ++ "/" ++ replaceChar key '+' ' ',
           replaceChar key '+' ' ', ty, sz⟩], RecordStep.next) := by
    simp only [processRecord, hp, hg, hct, hcl]
    rw [if_neg (by simp [hguard])]
    by_cases himg : strStartsWith ty "image" = true
    · rw [if_pos himg, if_pos (show (!(["image/png", "image/jpeg",
          "image/jpg"].contains ty)) = true by rw [hns]; rfl)]
    · rw [if_neg himg]
  exact ⟨hpr, s3_event_handler_cons_next env r rest (by rw [hpr])⟩

/-- Witness for C8 with content type image/svg+xml. -/
theorem unsupported_type_skips_thumbnail_witness :
    processRecord
        ⟨fun _ _ => some ⟨some "image/svg+xml", some 7⟩, fun _ _ => none,
         fun _ _ _ => none⟩
        ⟨some "ObjectCreated:Put", some "b", some "pic.svg"⟩ =
      ([S3Effect.getObjectCall "b" (replaceChar "pic.svg" '+' ' '),
        S3Effect.putDbItem
          ⟨"s3://" ++ "b" ++ "/" ++ replaceChar "pic.svg" '+' ' ',
           replaceChar "pic.svg" '+' ' ', "image/svg+xml", 7⟩],
       RecordStep.next)
    ∧ s3_event_handler
          ⟨fun _ _ => some ⟨some "image/svg+xml", some 7⟩, fun _ _ => none,
           fun _ _ _ => none⟩
          [⟨some "ObjectCreated:Put", some "b", some "pic.svg"⟩] =
        ((processRecord
            ⟨fun _ _ => some ⟨some "image/svg+xml", some 7⟩, fun _ _ => none,
             fun _ _ _ => none⟩
            ⟨some "ObjectCreated:Put", some "b", some "pic.svg"⟩).1 ++
           (s3_event_handler
             ⟨fun _ _ => some ⟨some "image/svg+xml", some 7⟩, fun _ _ => none,
              fun _ _ _ => none⟩ []).1,
         (s3_event_handler
           ⟨fun _ _ => some ⟨some "image/svg+xml", some 7⟩, fun _ _ => none,
            fun _ _ _ => none⟩ []).2) :=
  unsupported_type_skips_thumbnail
    ⟨fun _ _ => some ⟨some "image/svg+xml", some 7⟩, fun _ _ => none,
     fun _ _ _ => none⟩
    ⟨some "ObjectCreated:Put", some "b", some "pic.svg"⟩ []
    "b" "pic.svg" ⟨some "image/svg+xml", some 7⟩ "image/svg+xml" 7
    rfl rfl rfl rfl rfl rfl

/-- C9: for a record that passes the filter and whose metadata fetch
succeeds but returns no content type or no content length, the handler
panics on the unwrap of None: the invocation aborts instead of skipping the
record, and the remaining batch is left unprocessed. -/
theorem missing_metadata_panics (env : S3Env) (r : S3EventRecord)
    (rest : List S3EventRecord) (bucket key : String)
    (response : HeadObjectResponse)
    (hp : get_file_props r = .ok (bucket, key))
    (hg : env.get_object bucket (replaceChar key '+' ' ') = some response)
    (hmiss : response.content_type = none ∨ response.content_length = none) :
    s3_event_handler env (r :: rest) =
      ([S3Effect.getObjectCall bucket (replaceChar key '+' ' ')],
       HandlerOutcome.panicked) := by
  have hpr : processRecord env r =
      ([S3Effect.getObjectCall bucket (replaceChar key '+' ' ')],
       RecordStep.panicked) := by
    rcases hmiss with hct | hcl
    · simp [processRecord, hp, hg, hct]
    · cases hct : response.content_type with
      | none => simp [processRecord, hp, hg, hct]
      | some ty => simp [processRecord, hp, hg, hct, hcl]
  rw [s3_event_handler_cons_panic env r rest (by rw [hpr]), hpr]

/-- Witness for C9: metadata with a missing content type panics the whole
invocation. -/
theorem missing_metadata_panics_witness :
    s3_event_handler
        ⟨fun _ _ => some ⟨none, some 5⟩, fun _ _ => none, fun _ _ _ => none⟩
        [⟨some "ObjectCreated:Put", some "b", some "cat.png"⟩,
         ⟨some "ObjectCreated:Put", some "b", some "dog.png"⟩] =
      ([S3Effect.getObjectCall "b" (replaceChar "cat.png" '+' ' ')],
       HandlerOutcome.panicked) :=
  missing_metadata_panics
    ⟨fun _ _ => some ⟨none, some 5⟩, fun _ _ => none, fun _ _ _ => none⟩
    ⟨some "ObjectCreated:Put", some "b", some "cat.png"⟩
    [⟨some "ObjectCreated:Put", some "b", some "dog.png"⟩]
    "b" "cat.png" ⟨none, some 5⟩ rfl rfl (Or.inl rfl)

theorem processRecord_ok_shape (env : S3Env) (r : S3EventRecord)
    (bucket key : String) (hp : get_file_props r = .ok (bucket, key)) :
    ∃ t, (processRecord env r).1 =
        S3Effect.getObjectCall bucket (replaceChar key '+' ' ') :: t ∧
      ∀ b' k', S3Effect.getFileCall b' k' ∈ t →
        b' = bucket ∧ k' = replaceChar key '+' ' ' := by
  simp only [processRecord, hp]
  cases hgo : env.get_object bucket (replaceChar key '+' ' ') with
  | none => exact ⟨[], rfl, by simp⟩
  | some resp =>
    dsimp only
    cases hct : resp.content_type with
    | none => exact ⟨[], rfl, by simp⟩
    | some ty =>
      dsimp only
      cases hcl : resp.content_length with
      | none => exact ⟨[], rfl, by simp⟩
      | some sz =>
        dsimp only
        by_cases hguard :
            strStartsWith (replaceChar key '+' ' ') "thumbnail-" = true
        · rw [if_pos hguard]
          exact ⟨_, rfl, by simp⟩
        · rw [if_neg hguard]
          by_cases himg : strStartsWith ty "image" = true
          · rw [if_pos himg]
            by_cases hc :
                (!(["image/png", "image/jpeg", "image/jpg"].contains ty)) =
                  true
            · rw [if_pos hc]
              exact ⟨_, rfl, by simp⟩
            · rw [if_neg hc]
              cases hgf : env.get_file bucket (replaceChar key '+' ' ') with
              | none =>
                refine ⟨_, rfl, ?_⟩
                intro b' k' h
                simp at h
                exact h
              | some image =>
                dsimp only
                cases hth : env.make_thumbnail image ty 128 with
                | none =>
                  refine ⟨_, rfl, ?_⟩
                  intro b' k' h
                  simp at h
                  exact h
                | some th =>
                  refine ⟨_, rfl, ?_⟩
                  intro b' k' h
                  simp at h
                  exact h
          · rw [if_neg himg]
            exact ⟨_, rfl, by simp⟩

/-- C10: for every accepted record, the metadata fetch and every byte fetch
use the normalized object_name (each literal plus sign replaced by a space)
rather than the raw key; when the raw key contains a literal plus sign the
looked-up name differs from the actual key, and if that lookup fails the
record is skipped (only the failed fetch appears in its trace) and the
batch continues with the next record. -/
theorem fetch_uses_normalized_key (env : S3Env) (r : S3EventRecord)
    (rest : List S3EventRecord) (bucket key : String)
    (hp : get_file_props r = .ok (bucket, key)) :
    (∃ t, (processRecord env r).1 =
        S3Effect.getObjectCall bucket (replaceChar key '+' ' ') :: t)
    ∧ (∀ b' k', S3Effect.getFileCall b' k' ∈ (processRecord env r).1 →
        k' = replaceChar key '+' ' ')
    ∧ ('+' ∈ key.data → replaceChar key '+' ' ' ≠ key)
    ∧ (env.get_object bucket (replaceChar key '+' ' ') = none →
        processRecord env r =
          ([S3Effect.getObjectCall bucket (replaceChar key '+' ' ')],
           RecordStep.next)
        ∧ s3_event_handler env (r :: rest) =
            (S3Effect.getObjectCall bucket (replaceChar key '+' ' ') ::
               (s3_event_handler env rest).1,
             (s3_event_handler env rest).2)) := by
  obtain ⟨t, ht, hmem⟩ := processRecord_ok_shape env r bucket key hp
  refine ⟨⟨t, ht⟩, ?_, replaceChar_ne_of_mem key, ?_⟩
  · intro b' k' h
    rw [ht] at h
    rcases List.mem_cons.mp h with heq | hmem' 
    · exact absurd heq (by simp)
    · exact (hmem b' k' hmem').2
  · intro hnone
    have hpr : processRecord env r =
        ([S3Effect.getObjectCall bucket (replaceChar key '+' ' ')],
         RecordStep.next) := by
      simp [processRecord, hp, hnone]
    refine ⟨hpr, ?_⟩
    rw [s3_event_handler_cons_next env r rest (by rw [hpr]), hpr]
    simp

/-- Witness for C10: a key containing a literal plus sign is normalized
before the fetch, and the record is skipped when that fetch fails. -/
theorem fetch_uses_normalized_key_witness :
    (∃ t, (processRecord ⟨fun _ _ => none, fun _ _ => none, fun _ _ _ => none⟩
        ⟨some "ObjectCreated:Put", some "b", some "a+b.png"⟩).1 =
        S3Effect.getObjectCall "b" (replaceChar "a+b.png" '+' ' ') :: t)
    ∧ (∀ b' k', S3Effect.getFileCall b' k' ∈
        (processRecord ⟨fun _ _ => none, fun _ _ => none, fun _ _ _ => none⟩
          ⟨some "ObjectCreated:Put", some "b", some "a+b.png"⟩).1 →
        k' = replaceChar "a+b.png" '+' ' ')
    ∧ ('+' ∈ ("a+b.png" : String).data →
        replaceChar "a+b.png" '+' ' ' ≠ "a+b.png")
    ∧ ((fun _ _ => none : String → String → Option HeadObjectResponse) "b"
          (replaceChar "a+b.png" '+' ' ') = none →
        processRecord ⟨fun _ _ => none, fun _ _ => none, fun _ _ _ => none⟩
            ⟨some "ObjectCreated:Put", some "b", some "a+b.png"⟩ =
          ([S3Effect.getObjectCall "b" (replaceChar "a+b.png" '+' ' ')],
           RecordStep.next)
        ∧ s3_event_handler
              ⟨fun _ _ => none, fun _ _ => none, fun _ _ _ => none⟩
              [⟨some "ObjectCreated:Put", some "b", some "a+b.png"⟩] =
            (S3Effect.getObjectCall "b" (replaceChar "a+b.png" '+' ' ') ::
               (s3_event_handler
                 ⟨fun _ _ => none, fun _ _ => none, fun _ _ _ => none⟩ []).1,
             (s3_event_handler
               ⟨fun _ _ => none, fun _ _ => none, fun _ _ _ => none⟩ []).2)) :=
  fetch_uses_normalized_key
    ⟨fun _ _ => none, fun _ _ => none, fun _ _ _ => none⟩
    ⟨some "ObjectCreated:Put", some "b", some "a+b.png"⟩ [] "b" "a+b.png" rfl

/-- C1 counterexample: with two records and every delete failing, only the
first record's delete is attempted — the record after the failing one is
never attempted, contradicting the claim that a per-item delete failure
does not abort deletion of the remaining items. -/
theorem delete_abort_counterexample :
    (delete_s3_info_from_db ⟨none, fun _ => false, none, none⟩
        [⟨"s3://b/a", "a", "t", 1⟩, ⟨"s3://b/c", "c", "t", 1⟩]).1 =
      [MailEffect.deleteItemCall "s3://b/a"] ∧
    MailEffect.deleteItemCall "s3://b/c" ∉
      (delete_s3_info_from_db ⟨none, fun _ => false, none, none⟩
        [⟨"s3://b/a", "a", "t", 1⟩, ⟨"s3://b/c", "c", "t", 1⟩]).1 := by
  constructor
  · rfl
  · decide

/-- C1 as amended: deleteAll deletes each record by its sort key one at a
time in order, but a per-item delete failure aborts the loop — the Err
propagates, the function returns failure, and the records after the first
failing one are not attempted.  When every delete succeeds, all records are
attempted and the function returns success. -/
theorem delete_one_at_a_time_abort_on_failure (env : MailEnv) :
    (∀ l : List S3ObjectInfo,
      (∀ i ∈ l, env.delete_ok i.s3_uri = true) →
      delete_s3_info_from_db env l =
        (l.map (fun i => MailEffect.deleteItemCall i.s3_uri), true))
    ∧ (∀ (pre : List S3ObjectInfo) (info : S3ObjectInfo)
         (post : List S3ObjectInfo),
        (∀ i ∈ pre, env.delete_ok i.s3_uri = true) →
        env.delete_ok info.s3_uri = false →
        delete_s3_info_from_db env (pre ++ info :: post) =
          (pre.map (fun i => MailEffect.deleteItemCall i.s3_uri) ++
             [MailEffect.deleteItemCall info.s3_uri], false)) := by
  constructor
  · intro l
    induction l with
    | nil => intro _; rfl
    | cons a t ih =>
      intro h
      have ha : env.delete_ok a.s3_uri = true := h a (List.mem_cons_self a t)
      have ht := ih (fun i hi => h i (List.mem_cons_of_mem a hi))
      simp [delete_s3_info_from_db, ha, ht]
  · intro pre info post hpre hinfo
    induction pre with
    | nil => simp [delete_s3_info_from_db, hinfo]
    | cons a t ih =>
      have ha : env.delete_ok a.s3_uri = true :=
        hpre a (List.mem_cons_self a t)
      have ht := ih (fun i hi => hpre i (List.mem_cons_of_mem a hi))
      simp [delete_s3_info_from_db, ha, ht]

/-- Witness for the amended C1: the first delete succeeds, the second
fails, and the third record is never attempted. -/
theorem delete_one_at_a_time_abort_on_failure_witness :
    delete_s3_info_from_db
        (⟨none, fun u => u == "s3://b/a", none, none⟩ : MailEnv)
        (([⟨"s3://b/a", "a", "t", 1⟩] : List S3ObjectInfo) ++
          (⟨"s3://b/c", "c", "t", 1⟩ : S3ObjectInfo) ::
          ([⟨"s3://b/d", "d", "t", 1⟩] : List S3ObjectInfo)) =
      (([⟨"s3://b/a", "a", "t", 1⟩] : List S3ObjectInfo).map
          (fun i => MailEffect.deleteItemCall i.s3_uri) ++
        [MailEffect.deleteItemCall "s3://b/c"], false) :=
  (delete_one_at_a_time_abort_on_failure
      (⟨none, fun u => u == "s3://b/a", none, none⟩ : MailEnv)).2
    [⟨"s3://b/a", "a", "t", 1⟩] ⟨"s3://b/c", "c", "t", 1⟩
    [⟨"s3://b/d", "d", "t", 1⟩] (by decide) (by decide)

/-- C6: if the query of all records fails, the report cycle aborts
entirely: its trace is the query call alone, so no delete is attempted and
no send is attempted, leaving the persisted records unchanged for the next
timer tick. -/
theorem query_failure_aborts_cycle (env : MailEnv)
    (h : env.query_result = none) :
    send_daily_report_mail env = [MailEffect.queryCall] ∧
    (∀ u, MailEffect.deleteItemCall u ∉ send_daily_report_mail env) ∧
    MailEffect.sendAttempt ∉ send_daily_report_mail env := by
  have he : send_daily_report_mail env = [MailEffect.queryCall] := by
    simp [send_daily_report_mail, h]
  refine ⟨he, ?_, ?_⟩
  · intro u
    rw [he]
    simp
  · rw [he]
    simp

/-- Witness for C6 at a concrete failing-query environment. -/
theorem query_failure_aborts_cycle_witness :
    send_daily_report_mail ⟨none, fun _ => true, some "user", some "pw"⟩ =
      [MailEffect.queryCall] ∧
    (∀ u, MailEffect.deleteItemCall u ∉
      send_daily_report_mail ⟨none, fun _ => true, some "user", some "pw"⟩) ∧
    MailEffect.sendAttempt ∉
      send_daily_report_mail ⟨none, fun _ => true, some "user", some "pw"⟩ :=
  query_failure_aborts_cycle ⟨none, fun _ => true, some "user", some "pw"⟩ rfl

/-- C7: in every report cycle whose query succeeds, the delete of the exact
batch just read runs before any send attempt: the trace is the query call,
then precisely the delete attempts of delete_s3_info_from_db on that batch,
then a tail holding at most one send attempt and no delete — so the send
step never precedes the deletion attempt and a send failure is never
followed by a rollback or re-run of deletion (the send result is not even
an input of the trace). -/
theorem delete_before_send (env : MailEnv) (l : List S3ObjectInfo)
    (h : env.query_result = some l) :
    ∃ tail, send_daily_report_mail env =
        MailEffect.queryCall :: ((delete_s3_info_from_db env l).1 ++ tail) ∧
      (∀ u, MailEffect.deleteItemCall u ∉ tail) ∧
      (tail = [] ∨ tail = [MailEffect.sendAttempt]) := by
  simp only [send_daily_report_mail, h]
  cases hu : env.email_username with
  | none => exact ⟨[], by simp, by simp, Or.inl rfl⟩
  | some u =>
    cases hpw : env.email_password with
    | none => exact ⟨[], by simp, by simp, Or.inl rfl⟩
    | some p => exact ⟨[MailEffect.sendAttempt], by simp, by simp, Or.inr rfl⟩

/-- Witness for C7 at a concrete environment with one queried record and
both credentials present. -/
theorem delete_before_send_witness :
    ∃ tail, send_daily_report_mail
        ⟨some [⟨"s3://b/a", "a", "t", 1⟩], fun _ => true,
         some "user", some "pw"⟩ =
        MailEffect.queryCall ::
          ((delete_s3_info_from_db
              ⟨some [⟨"s3://b/a", "a", "t", 1⟩], fun _ => true,
               some "user", some "pw"⟩ [⟨"s3://b/a", "a", "t", 1⟩]).1 ++
            tail) ∧
      (∀ u, MailEffect.deleteItemCall u ∉ tail) ∧
      (tail = [] ∨ tail = [MailEffect.sendAttempt]) :=
  delete_before_send
    ⟨some [⟨"s3://b/a", "a", "t", 1⟩], fun _ => true, some "user", some "pw"⟩
    [⟨"s3://b/a", "a", "t", 1⟩] rfl

/-- C2 counterexample: a timer invocation in which the store delete raises
a transport error (the delete loop returns Err, and the failed delete call
is in the invocation's trace) still reports success to the scheduler — the
error is caught and logged inside send_daily_report_mail, refuting the
claim that a delete transport error causes the invocation to report
failure. -/
theorem invocation_outcome_counterexample :
    (delete_s3_info_from_db
        (⟨some [⟨"s3://b/a", "a", "t", 1⟩], fun _ => false,
          some "u", some "p"⟩ : MailEnv)
        [⟨"s3://b/a", "a", "t", 1⟩]).2 = false ∧
    MailEffect.deleteItemCall "s3://b/a" ∈
      (function_handler (⟨false, none, true⟩ : Payload)
        (⟨fun _ _ => none, fun _ _ => none, fun _ _ _ => none⟩ : S3Env)
        (⟨some [⟨"s3://b/a", "a", "t", 1⟩], fun _ => false,
          some "u", some "p"⟩ : MailEnv)).2.1 ∧
    (function_handler (⟨false, none, true⟩ : Payload)
        (⟨fun _ _ => none, fun _ _ => none, fun _ _ _ => none⟩ : S3Env)
        (⟨some [⟨"s3://b/a", "a", "t", 1⟩], fun _ => false,
          some "u", some "p"⟩ : MailEnv)).2.2 =
      InvocationOutcome.success := by
  refine ⟨rfl, ?_, rfl⟩
  decide

/-- C2 as amended: an invocation reports failure exactly when the payload
has a Records field and either fails to parse as the storage-notification
schema or the notification path panics on a metadata response missing its
content type or length; in particular a store delete transport error in
the timer path is caught and logged and the invocation still reports
success. -/
theorem invocation_failure_iff (payload : Payload) (s3env : S3Env)
    (mailEnv : MailEnv) :
    (function_handler payload s3env mailEnv).2.2 = InvocationOutcome.failure
      ↔ (payload.has_records = true ∧
          (payload.parsed_records = none ∨
            ∃ records, payload.parsed_records = some records ∧
              (s3_event_handler s3env records).2 = HandlerOutcome.panicked))
    := by
  cases hr : payload.has_records with
  | false =>
    cases ht : payload.has_time <;> simp [function_handler, hr, ht]
  | true =>
    cases hpr : payload.parsed_records with
    | none => simp [function_handler, hr, hpr]
    | some records =>
      rcases hse : s3_event_handler s3env records with ⟨effs, out⟩
      cases out with
      | ok => simp [function_handler, hr, hpr, hse]
      | panicked => simp [function_handler, hr, hpr, hse]
